import Mathlib

/-!
Shallow embedding of the video streaming pipeline of the shna framework
(packages/core/src/streaming/StreamingService.ts) together with proofs about
its data model, registry operations, processing state machine, delivery
routes and quality-tier tables.

Modelling conventions:
* the JavaScript `Map<string, Video>` registry is an insertion-ordered
  association list (`RegMap`); `Map.set` replaces in place or appends,
  `Map.get` finds the first binding, `Array.from(map.values())` is the
  list of values in insertion order;
* timestamps are `Nat` ticks; `new Date()` at a mutation site is the tick
  passed to the operation;
* the asynchronous engine inputs and outputs (directory creation, thumbnail
  extraction, ffprobe, HLS encoding) are captured by an `EngineOutcome`
  record of success flags, and `processVideoStates` lists every successive
  registry state produced by `processVideo`;
* an HTTP handler is a pure function from service state and request data to
  an `HttpResponse`; the filesystem seen by the delivery routes is a boolean
  predicate on normalized path component lists.
-/

namespace Shna

/-- The `status` field of a `Video`: `"uploading" | "processing" | "ready" | "error"`. -/
inductive VideoStatus where
  | uploading
  | processing
  | ready
  | error
deriving DecidableEq, Repr

/-- String form of a status, as stored in the JavaScript record. -/
def VideoStatus.str : VideoStatus → String
  | .uploading => "uploading"
  | .processing => "processing"
  | .ready => "ready"
  | .error => "error"

/-- The `streamingUrls` object: `{ hls?: string, dash?: string }`. -/
structure StreamingUrls where
  hls : Option String
  dash : Option String
deriving DecidableEq, Repr

/-- The `Video` interface of packages/core/src/types. -/
structure Video where
  id : String
  title : String
  description : Option String
  userId : String
  filename : String
  originalUrl : String
  streamingUrls : Option StreamingUrls
  thumbnailUrl : Option String
  duration : Option Nat
  size : Nat
  status : VideoStatus
  createdAt : Nat
  updatedAt : Nat
deriving DecidableEq, Repr

/-- The in-memory registry `videos: Map<string, Video>`, in insertion order. -/
abbrev RegMap : Type := List (String × Video)

/-- `Map.set`: replace the binding in place when the key is present,
append a new binding otherwise. -/
def mapSet (m : RegMap) (k : String) (v : Video) : RegMap :=
  match m with
  | [] => [(k, v)]
  | p :: rest => if p.1 = k then (k, v) :: rest else p :: mapSet rest k v

/-- `Map.get`: the value of the first binding with the given key. -/
def mapGet (m : RegMap) (k : String) : Option Video :=
  (m.find? (fun p => p.1 == k)).map (fun p => p.2)

/-- `Array.from(map.values())`: the values in insertion order. -/
def mapValues (m : RegMap) : List Video := m.map (fun p => p.2)

/-- `getResolution`: the fixed quality-tier resolution table with its
`"640x360"` fallback. -/
def getResolution (quality : String) : String :=
  if quality = "240p" then "426x240"
  else if quality = "360p" then "640x360"
  else if quality = "480p" then "854x480"
  else if quality = "720p" then "1280x720"
  else if quality = "1080p" then "1920x1080"
  else "640x360"

/-- `getBitrate`: the fixed quality-tier target bitrate table with its
`"800k"` fallback. -/
def getBitrate (quality : String) : String :=
  if quality = "240p" then "400k"
  else if quality = "360p" then "800k"
  else if quality = "480p" then "1200k"
  else if quality = "720p" then "2500k"
  else if quality = "1080p" then "5000k"
  else "800k"

/-- `getBandwidth`: the fixed master-playlist BANDWIDTH table with its
`1000000` fallback. -/
def getBandwidth (quality : String) : Nat :=
  if quality = "240p" then 500000
  else if quality = "360p" then 1000000
  else if quality = "480p" then 1500000
  else if quality = "720p" then 3000000
  else if quality = "1080p" then 6000000
  else 1000000

/-- Decimal value of a digit character list. -/
def digitsToNat (cs : List Char) : Nat :=
  cs.foldl (fun n c => 10 * n + (c.toNat - 48)) 0

/-- Numeric value in bits per second of a bitrate string such as `"800k"`:
a trailing `k` multiplies the decimal prefix by 1000. -/
def bitrateBps (s : String) : Nat :=
  let cs := s.toList
  if cs.getLast? = some 'k' then 1000 * digitsToNat cs.dropLast
  else digitsToNat cs

/-- Is a list of numbers in ascending (non-decreasing) order? -/
def ascendingNat : List Nat → Bool
  | [] => true
  | [_] => true
  | a :: b :: rest => a ≤ b && ascendingNat (b :: rest)

/-- The `StreamingConfig` fields the service reads: the optional storage
paths, whether `formats` includes `"hls"`, and the optional `qualities`
list.  `transcoding.concurrent` exists in the interface but is never read
by the service, so it appears here only as data. -/
structure StreamingConfig where
  videosPath : Option String
  chunksPath : Option String
  formatsHasHls : Bool
  qualities : Option (List String)
  transcodingConcurrent : Option Nat
deriving DecidableEq, Repr

/-- `this.config.storage?.videosPath || "./uploads/videos"`. -/
def videosPathOf (c : StreamingConfig) : String :=
  c.videosPath.getD "./uploads/videos"

/-- `this.config.storage?.chunksPath || "./uploads/chunks"`. -/
def chunksPathOf (c : StreamingConfig) : String :=
  c.chunksPath.getD "./uploads/chunks"

/-- `this.config.qualities || ["720p", "480p", "360p"]` in `generateHLS`. -/
def qualitiesOf (c : StreamingConfig) : List String :=
  c.qualities.getD ["720p", "480p", "360p"]

/-- Success data of the asynchronous engine and storage calls made by
`processVideo`: `fs.ensureDir`, the thumbnail screenshot, `ffprobe`
(carrying the probed duration on success) and the HLS encode run. -/
structure EngineOutcome where
  dirOk : Bool
  thumbOk : Bool
  probe : Option Nat
  hlsOk : Bool
deriving DecidableEq, Repr

/-- `true` when every step of `processVideo` that can throw succeeds
(the HLS encode only runs when `formats` includes `"hls"`). -/
def processSucceeds (eo : EngineOutcome) (fhls : Bool) : Bool :=
  eo.dirOk && eo.thumbOk && eo.probe.isSome && (!fhls || eo.hlsOk)

/-- The catch block of `processVideo`: mark the current record `error`
and refresh `updatedAt`. -/
def failStep (m : RegMap) (id : String) (t : Nat) : RegMap :=
  match mapGet m id with
  | none => m
  | some v => mapSet m id { v with status := .error, updatedAt := t }

/-- The `streamingUrls` object set by `processVideo` on success. -/
def readyUrls (id : String) : StreamingUrls :=
  { hls := some ("/streaming/stream/" ++ id ++ "/playlist.m3u8"), dash := none }

/-- Every successive registry state produced by `processVideo(videoId)`:
the transition to `processing`, the `duration` write after a successful
probe, and either the `ready` record (with `streamingUrls` and
`thumbnailUrl`) or the `error` record from the catch block.  A failure of
directory creation, thumbnail extraction, probing, or (when HLS is
configured) encoding throws into the catch block. -/
def processVideoStates (m : RegMap) (id : String) (eo : EngineOutcome)
    (fhls : Bool) (t : Nat) : List RegMap :=
  match mapGet m id with
  | none => []
  | some v =>
    let s1 := mapSet m id { v with status := .processing, updatedAt := t }
    if eo.dirOk = false then [s1, failStep s1 id t]
    else if eo.thumbOk = false then [s1, failStep s1 id t]
    else
      match eo.probe with
      | none => [s1, failStep s1 id t]
      | some dur =>
        let s2 := mapSet s1 id
          { v with status := .processing, updatedAt := t, duration := some dur }
        if fhls && !eo.hlsOk then [s1, s2, failStep s2 id t]
        else
          let v3 : Video :=
            { v with
              status := .ready
              updatedAt := t
              duration := some dur
              streamingUrls := some (readyUrls id)
              thumbnailUrl := some ("/streaming/thumbnails/" ++ id) }
          [s1, s2, mapSet s2 id v3]

/-- The registry state after `processVideo(videoId)` has finished. -/
def processVideoFinal (m : RegMap) (id : String) (eo : EngineOutcome)
    (fhls : Bool) (t : Nat) : RegMap :=
  (processVideoStates m id eo fhls t).getLastD m

/-- The uploaded file data multer provides on `req.file`. -/
structure UploadFile where
  originalname : String
  filename : String
  size : Nat
deriving DecidableEq, Repr

/-- The request data the upload route reads. -/
structure UploadReq where
  file : Option UploadFile
  title : Option String
  description : Option String
  userId : Option String
deriving DecidableEq, Repr

/-- The JSON responses of the upload route. -/
inductive UploadResponse where
  | noFile
  | created (id : String) (title : String) (status : VideoStatus)
      (originalUrl : String)
deriving DecidableEq, Repr

/-- Status reported by an upload response, if any. -/
def UploadResponse.statusOf : UploadResponse → Option VideoStatus
  | .noFile => none
  | .created _ _ st _ => some st

/-- Service state touched by ingestion: the registry, the (never consumed)
`processingQueue` field, and the ids whose `processVideo` invocation has
started and not yet finished. -/
structure SysState where
  videos : RegMap
  processingQueue : List String
  active : List String
deriving DecidableEq

/-- The fresh `Video` record built by the upload route
(`status: "uploading"`, no streaming urls, no thumbnail, no duration). -/
def mkVideoRecord (req : UploadReq) (f : UploadFile) (freshId : String)
    (t : Nat) : Video :=
  { id := freshId
    title := req.title.getD f.originalname
    description := req.description
    userId := req.userId.getD "anonymous"
    filename := f.filename
    originalUrl := "/streaming/videos/" ++ f.filename
    streamingUrls := none
    thumbnailUrl := none
    duration := none
    size := f.size
    status := .uploading
    createdAt := t
    updatedAt := t }

/-- The part of `processVideo(videoId)` that runs synchronously before its
first `await`: look the record up and, when present, mutate it to
`processing`; the invocation is then in flight (recorded in `active`). -/
def startProcessing (st : SysState) (videoId : String) (t : Nat) : SysState :=
  match mapGet st.videos videoId with
  | none => st
  | some v =>
    { st with
      videos := mapSet st.videos videoId
        { v with status := .processing, updatedAt := t },
      active := st.active ++ [videoId] }

/-- The upload route: reject when no file is present; otherwise create the
record with `status: "uploading"`, store it, call `this.processVideo(id)`
(whose synchronous part runs to completion before the handler resumes),
and only then serialize the 201 response from the current record. -/
def handleUpload (st : SysState) (req : UploadReq) (freshId : String)
    (t : Nat) : SysState × UploadResponse :=
  match req.file with
  | none => (st, .noFile)
  | some f =>
    let video := mkVideoRecord req f freshId t
    let st1 := { st with videos := mapSet st.videos freshId video }
    let st2 := startProcessing st1 freshId t
    let vNow := (mapGet st2.videos freshId).getD video
    (st2, .created vNow.id vNow.title vNow.status vNow.originalUrl)

/-- The list route's response data: the page of records, `total` and
`pages` from the pagination metadata. -/
structure ListResult where
  videos : List Video
  total : Nat
  pages : Nat
deriving DecidableEq, Repr

/-- Does a record pass both optional filters of the list route? -/
def matchesFilters (uid : Option String) (status : Option String)
    (v : Video) : Bool :=
  (match uid with | some u => v.userId == u | none => true) &&
  (match status with | some s => v.status.str == s | none => true)

/-- The `GET /videos` route: values in insertion order, filtered by
`userId` then by `status`, then `slice(startIndex, endIndex)`, with
`total` the filtered length and `pages` its ceiling quotient by `limit`.
`page` defaults to 1 and `limit` to 10 in the route. -/
def listVideos (m : RegMap) (uid : Option String) (status : Option String)
    (page : Nat) (limit : Nat) : ListResult :=
  let vs0 : List Video := mapValues m
  let vs1 : List Video := match uid with
    | some u => vs0.filter (fun v => v.userId == u)
    | none => vs0
  let vs2 : List Video := match status with
    | some s => vs1.filter (fun v => v.status.str == s)
    | none => vs1
  let startIndex := (page - 1) * limit
  { videos := (vs2.drop startIndex).take limit
    total := vs2.length
    pages := (vs2.length + limit - 1) / limit }

/-- A filesystem path as its normalized component list. -/
abbrev PathC : Type := List String

/-- Split a character list at `/` separators. -/
def splitSlash : List Char → List (List Char)
  | [] => [[]]
  | c :: rest =>
    let r := splitSlash rest
    if c = '/' then [] :: r
    else
      match r with
      | [] => [[c]]
      | g :: gs => (c :: g) :: gs

/-- Split a path string into components, dropping empty and `"."` parts. -/
def splitComponents (s : String) : List String :=
  ((splitSlash s.toList).map (fun g => String.mk g)).filter
    (fun c => c ≠ "" && c ≠ ".")

/-- One step of path normalization: `".."` pops the last surviving
component (and is kept when nothing is left to pop, as for relative
paths). -/
def normStep (stack : List String) (c : String) : List String :=
  if c = ".." then
    match stack with
    | [] => [".."]
    | top :: rest => if top = ".." then c :: top :: rest else rest
  else c :: stack

/-- `path.join` of Node: concatenate the parts and normalize `"."` and
`".."` components. -/
def joinPaths (parts : List String) : PathC :=
  (((parts.map splitComponents).flatten).foldl normStep []).reverse

/-- Is `p` inside the directory `dir` (i.e. `dir` a prefix of `p`)? -/
def underDir (dir p : PathC) : Bool :=
  p.take dir.length == dir

/-- A delivery-route response: a JSON error with its HTTP status, or
`res.sendFile` of a path with a content type. -/
inductive HttpResponse where
  | jsonError (status : Nat) (errorMessage : String)
  | sentFile (contentType : String) (path : PathC)
deriving DecidableEq

/-- The filesystem the delivery routes consult: which normalized paths
exist (`fs.existsSync`). -/
abbrev FsModel : Type := PathC → Bool

/-- `GET /stream/:id/playlist.m3u8`: a missing record or any status other
than `"ready"` yields the same 404; otherwise the master playlist under
the chunks path is sent as `application/vnd.apple.mpegurl` when it
exists. -/
def getManifest (cfg : StreamingConfig) (m : RegMap) (fs : FsModel)
    (id : String) : HttpResponse :=
  match mapGet m id with
  | none => .jsonError 404 "Video not ready for streaming"
  | some v =>
    if v.status = .ready then
      let playlistPath := joinPaths [chunksPathOf cfg, id, "playlist.m3u8"]
      if fs playlistPath then
        .sentFile "application/vnd.apple.mpegurl" playlistPath
      else .jsonError 404 "Playlist not found"
    else .jsonError 404 "Video not ready for streaming"

/-- `GET /stream/:id/:segment`: the segment parameter is joined onto the
video's chunk directory with no validation; when the resulting path
exists it is sent as `video/MP2T`. -/
def getSegment (cfg : StreamingConfig) (m : RegMap) (fs : FsModel)
    (id : String) (segment : String) : HttpResponse :=
  match mapGet m id with
  | none => .jsonError 404 "Video not ready for streaming"
  | some v =>
    if v.status = .ready then
      let segmentPath := joinPaths [chunksPathOf cfg, id, segment]
      if fs segmentPath then .sentFile "video/MP2T" segmentPath
      else .jsonError 404 "Segment not found"
    else .jsonError 404 "Video not ready for streaming"

/-- One `#EXT-X-STREAM-INF` block of the master playlist. -/
def renderEntry (bandwidth : Nat) (resolution : String) (uri : String) :
    String :=
  "#EXT-X-STREAM-INF:BANDWIDTH=" ++ toString bandwidth ++ ",RESOLUTION=" ++
    resolution ++ "\n" ++ uri ++ "\n\n"

/-- The per-quality metadata emitted by `generateMasterPlaylist`, in
emission order: BANDWIDTH, RESOLUTION and the sub-playlist uri. -/
def masterEntries (qualities : List String) : List (Nat × String × String) :=
  qualities.map (fun q => (getBandwidth q, getResolution q, q ++ ".m3u8"))

/-- `generateMasterPlaylist`: header plus one block per configured
quality, in the order of the `qualities` list. -/
def generateMasterPlaylist (qualities : List String) : String :=
  "#EXTM3U\n#EXT-X-VERSION:3\n\n" ++
    String.join (qualities.map
      (fun q => renderEntry (getBandwidth q) (getResolution q)
        (q ++ ".m3u8")))

/-- The per-quality encode outputs added by the loop in `generateHLS`, in
the order of the `qualities` list: output playlist name, `-s` resolution
and `-b:v` bitrate. -/
def encodeOutputs (qualities : List String) : List (String × String × String) :=
  qualities.map (fun q => (q ++ ".m3u8", getResolution q, getBitrate q))

/-- A record is consistent when its rendition manifest reference is
present exactly in the `ready` state. -/
def recordOk (v : Video) : Prop :=
  v.streamingUrls.isSome ↔ v.status = .ready

instance (v : Video) : Decidable (recordOk v) :=
  inferInstanceAs (Decidable (_ ↔ _))

/-- The registry invariant: every stored record is consistent. -/
def regInvariant (m : RegMap) : Prop :=
  ∀ p ∈ m, recordOk p.2

instance (m : RegMap) : Decidable (regInvariant m) :=
  inferInstanceAs (Decidable (∀ p ∈ m, recordOk p.2))

theorem mapGet_mapSet_self (m : RegMap) (k : String) (v : Video) :
    mapGet (mapSet m k v) k = some v := by
  induction m with
  | nil => simp [mapSet, mapGet, List.find?]
  | cons p rest ih =>
    by_cases h : p.1 = k
    · simp [mapSet, h, mapGet, List.find?]
    · simpa [mapSet, h, mapGet, List.find?, beq_iff_eq] using ih

theorem mapGet_mapSet_ne (m : RegMap) (k k' : String) (v : Video)
    (h : k' ≠ k) : mapGet (mapSet m k v) k' = mapGet m k' := by
  have hkk : (k == k') = false := by
    simp only [beq_eq_false_iff_ne, ne_eq]
    exact fun h2 => h h2.symm
  induction m with
  | nil => simp [mapSet, mapGet, List.find?, hkk]
  | cons p rest ih =>
    by_cases hp : p.1 = k
    · have hpk : (p.1 == k') = false := by rw [hp]; exact hkk
      simp [mapSet, hp, mapGet, List.find?, hkk, hpk]
    · by_cases hq : (p.1 == k') = true
      · simp [mapSet, hp, mapGet, List.find?, hq]
      · have hq2 : (p.1 == k') = false := by
          cases hb : (p.1 == k') with
          | true => exact absurd hb hq
          | false => rfl
        simp only [mapSet, if_neg hp, mapGet, List.find?, hq2]
        simpa [mapGet, List.find?] using ih

theorem mem_mapSet {m : RegMap} {k : String} {v : Video}
    {q : String × Video} (h : q ∈ mapSet m k v) : q = (k, v) ∨ q ∈ m := by
  induction m with
  | nil => simpa [mapSet] using h
  | cons p rest ih =>
    by_cases hp : p.1 = k
    · simp only [mapSet, hp, if_pos rfl] at h
      rcases List.mem_cons.1 h with h1 | h1
      · exact Or.inl h1
      · exact Or.inr (List.mem_cons.2 (Or.inr h1))
    · simp only [mapSet, hp, if_neg hp] at h
      rcases List.mem_cons.1 h with h1 | h1
      · exact Or.inr (List.mem_cons.2 (Or.inl h1))
      · rcases ih h1 with h2 | h2
        · exact Or.inl h2
        · exact Or.inr (List.mem_cons.2 (Or.inr h2))

theorem mem_of_mapGet_eq_some {m : RegMap} {k : String} {v : Video}
    (h : mapGet m k = some v) : (k, v) ∈ m := by
  induction m with
  | nil => simp [mapGet, List.find?] at h
  | cons p rest ih =>
    by_cases hp : p.1 = k
    · have hb : (p.1 == k) = true := by simp [beq_iff_eq, hp]
      simp only [mapGet, List.find?, hb, Option.map_some] at h
      have : v = p.2 := by injection h with h2; exact h2.symm
      subst this
      exact List.mem_cons.2 (Or.inl (by rw [← hp]))
    · have hb : (p.1 == k) = false := by simp [beq_iff_eq, hp]
      simp only [mapGet, List.find?, hb] at h
      exact List.mem_cons.2 (Or.inr (ih h))

theorem regInvariant_mapSet {m : RegMap} {k : String} {v : Video}
    (hm : regInvariant m) (hv : recordOk v) :
    regInvariant (mapSet m k v) := by
  intro q hq
  rcases mem_mapSet hq with h | h
  · rw [h]; exact hv
  · exact hm q h

/-- A record looked up out of an invariant-satisfying registry in a
non-`ready` status has no streaming urls. -/
theorem streamingUrls_none_of_not_ready {m : RegMap} {k : String}
    {v : Video} (hm : regInvariant m) (hget : mapGet m k = some v)
    (hst : v.status ≠ .ready) : v.streamingUrls = none := by
  have hok := hm (k, v) (mem_of_mapGet_eq_some hget)
  simp only [recordOk] at hok
  rcases h : v.streamingUrls with _ | u
  · rfl
  · exact absurd (hok.1 (by simp [h])) hst

/-- A configuration leaving every optional field unset, so that every
`||` default of the service applies. -/
def defaultConfig : StreamingConfig :=
  { videosPath := none
    chunksPath := none
    formatsHasHls := true
    qualities := none
    transcodingConcurrent := none }

/-- Claim C9 (counterexample): the configured tier `"240p"` is outside the
four-row table stated by the claim, yet it does not fall back to the
documented default `640x360` at `800k` - the code's table has a fifth row
`240p -> 426x240 at 400k`. -/
theorem resolution_240p_cex :
    getResolution "240p" = "426x240" ∧ getBitrate "240p" = "400k" ∧
    getResolution "240p" ≠ "640x360" ∧ getBitrate "240p" ≠ "800k" := by
  refine ⟨by decide, by decide, by decide, by decide⟩

/-- Claim C9 (amended): encode parameters are the fixed five-row lookup
`240p -> 426x240 at 400k`, `360p -> 640x360 at 800k`,
`480p -> 854x480 at 1200k`, `720p -> 1280x720 at 2500k`,
`1080p -> 1920x1080 at 5000k`, and every tier name outside this table
falls back to `640x360` at `800k`. -/
theorem quality_parameter_tables (q : String) :
    (getResolution "360p" = "640x360" ∧ getBitrate "360p" = "800k") ∧
    (getResolution "480p" = "854x480" ∧ getBitrate "480p" = "1200k") ∧
    (getResolution "720p" = "1280x720" ∧ getBitrate "720p" = "2500k") ∧
    (getResolution "1080p" = "1920x1080" ∧ getBitrate "1080p" = "5000k") ∧
    (getResolution "240p" = "426x240" ∧ getBitrate "240p" = "400k") ∧
    (q ≠ "240p" → q ≠ "360p" → q ≠ "480p" → q ≠ "720p" → q ≠ "1080p" →
      getResolution q = "640x360" ∧ getBitrate q = "800k") := by
  refine ⟨⟨by decide, by decide⟩, ⟨by decide, by decide⟩,
    ⟨by decide, by decide⟩, ⟨by decide, by decide⟩,
    ⟨by decide, by decide⟩, ?_⟩
  intro h1 h2 h3 h4 h5
  constructor
  · unfold getResolution
    rw [if_neg h1, if_neg h2, if_neg h3, if_neg h4, if_neg h5]
  · unfold getBitrate
    rw [if_neg h1, if_neg h2, if_neg h3, if_neg h4, if_neg h5]

/-- Witness for the amended C9 at the unknown tier name `"144p"`. -/
theorem quality_parameter_tables_witness :
    getResolution "144p" = "640x360" ∧ getBitrate "144p" = "800k" :=
  (quality_parameter_tables "144p").2.2.2.2.2 (by decide) (by decide)
    (by decide) (by decide) (by decide)

/-- Claim C10: the BANDWIDTH written into a master playlist entry comes
from the separate `getBandwidth` table (`240p -> 500000`,
`360p -> 1000000`, `480p -> 1500000`, `720p -> 3000000`,
`1080p -> 6000000`, default `1000000`) and for every tier name differs
from the numeric value of that tier's target encode bitrate. -/
theorem bandwidth_differs_from_bitrate (q : String) :
    (getBandwidth "240p" = 500000 ∧ getBandwidth "360p" = 1000000 ∧
     getBandwidth "480p" = 1500000 ∧ getBandwidth "720p" = 3000000 ∧
     getBandwidth "1080p" = 6000000) ∧
    (q ≠ "240p" → q ≠ "360p" → q ≠ "480p" → q ≠ "720p" → q ≠ "1080p" →
      getBandwidth q = 1000000) ∧
    getBandwidth q ≠ bitrateBps (getBitrate q) := by
  refine ⟨⟨by decide, by decide, by decide, by decide, by decide⟩, ?_, ?_⟩
  · intro h1 h2 h3 h4 h5
    unfold getBandwidth
    rw [if_neg h1, if_neg h2, if_neg h3, if_neg h4, if_neg h5]
  · by_cases h1 : q = "240p"
    · rw [h1]; decide
    · by_cases h2 : q = "360p"
      · rw [h2]; decide
      · by_cases h3 : q = "480p"
        · rw [h3]; decide
        · by_cases h4 : q = "720p"
          · rw [h4]; decide
          · by_cases h5 : q = "1080p"
            · rw [h5]; decide
            · unfold getBandwidth getBitrate
              rw [if_neg h1, if_neg h2, if_neg h3, if_neg h4, if_neg h5,
                if_neg h1, if_neg h2, if_neg h3, if_neg h4, if_neg h5]
              decide

/-- Witness for C10 at the unknown tier name `"luma"`. -/
theorem bandwidth_differs_from_bitrate_witness :
    getBandwidth "luma" = 1000000 ∧
    getBandwidth "luma" ≠ bitrateBps (getBitrate "luma") :=
  ⟨(bandwidth_differs_from_bitrate "luma").2.1 (by decide) (by decide)
    (by decide) (by decide) (by decide),
   (bandwidth_differs_from_bitrate "luma").2.2⟩

/-- Claim C6 (counterexample): with the default configured quality list
`["720p", "480p", "360p"]` the master playlist's BANDWIDTH sequence is
`[3000000, 1500000, 1000000]`, which is not in ascending order. -/
theorem master_playlist_not_ascending_cex :
    (masterEntries (qualitiesOf defaultConfig)).map (fun e => e.1) =
      [3000000, 1500000, 1000000] ∧
    ascendingNat
      ((masterEntries (qualitiesOf defaultConfig)).map (fun e => e.1)) =
        false := by
  refine ⟨by decide, by decide⟩

/-- Claim C6 (amended): the master playlist lists exactly the configured
renditions, in the configured (encode) order rather than ascending
bitrate order, each entry carrying the BANDWIDTH and RESOLUTION of its
tier. -/
theorem master_playlist_encode_order (qualities : List String) (q : String)
    (hq : q ∈ qualities) :
    ((masterEntries qualities).map (fun e => e.2.2) =
      (encodeOutputs qualities).map (fun o => o.1)) ∧
    (getBandwidth q, getResolution q, q ++ ".m3u8") ∈ masterEntries qualities ∧
    generateMasterPlaylist qualities =
      "#EXTM3U\n#EXT-X-VERSION:3\n\n" ++
        String.join ((masterEntries qualities).map
          (fun e => renderEntry e.1 e.2.1 e.2.2)) := by
  refine ⟨?_, ?_, ?_⟩
  · simp [masterEntries, encodeOutputs, List.map_map, Function.comp_def]
  · exact List.mem_map.2 ⟨q, hq, rfl⟩
  · simp [generateMasterPlaylist, masterEntries, List.map_map,
      Function.comp_def]

/-- Witness for the amended C6 at the default quality list and `"720p"`. -/
theorem master_playlist_encode_order_witness :
    ((masterEntries (qualitiesOf defaultConfig)).map (fun e => e.2.2) =
      (encodeOutputs (qualitiesOf defaultConfig)).map (fun o => o.1)) ∧
    (getBandwidth "720p", getResolution "720p", "720p" ++ ".m3u8") ∈
      masterEntries (qualitiesOf defaultConfig) ∧
    generateMasterPlaylist (qualitiesOf defaultConfig) =
      "#EXTM3U\n#EXT-X-VERSION:3\n\n" ++
        String.join ((masterEntries (qualitiesOf defaultConfig)).map
          (fun e => renderEntry e.1 e.2.1 e.2.2)) :=
  master_playlist_encode_order (qualitiesOf defaultConfig) "720p" (by decide)

/-- A small concrete video record for tests, consistent with `recordOk`. -/
def sampleVideo (vid uid : String) (st : VideoStatus) (t : Nat) : Video :=
  { id := vid
    title := vid
    description := none
    userId := uid
    filename := vid ++ ".mp4"
    originalUrl := "/streaming/videos/" ++ vid ++ ".mp4"
    streamingUrls := if st = .ready then some (readyUrls vid) else none
    thumbnailUrl := none
    duration := none
    size := 100
    status := st
    createdAt := t
    updatedAt := t }

/-- A registry holding one record in `processing` status. -/
def processingReg : RegMap := [("p1", sampleVideo "p1" "u" .processing 0)]

/-- A filesystem on which every path exists. -/
def allFs : FsModel := fun _ => true

/-- Claim C3 (counterexample): for the registered id `"p1"` in status
`processing`, the manifest route returns the same 404 response as for the
unknown id `"missing"` - there is no distinct wrong-lifecycle-state
(400-class) error. -/
theorem manifest_notready_same_as_notfound_cex :
    getManifest defaultConfig processingReg allFs "p1" =
      HttpResponse.jsonError 404 "Video not ready for streaming" ∧
    getManifest defaultConfig processingReg allFs "missing" =
      HttpResponse.jsonError 404 "Video not ready for streaming" ∧
    getManifest defaultConfig processingReg allFs "p1" =
      getManifest defaultConfig processingReg allFs "missing" := by
  refine ⟨by decide, by decide, by decide⟩

/-- Claim C3 (amended): for every registered id whose status is
`uploading` or `processing`, the manifest route answers with the 404
`"Video not ready for streaming"` error - the identical response returned
for an unknown id - and never sends the manifest file. -/
theorem manifest_not_ready_response (cfg : StreamingConfig) (m : RegMap)
    (fs : FsModel) (id : String) (v : Video)
    (hget : mapGet m id = some v)
    (hst : v.status = .uploading ∨ v.status = .processing) :
    getManifest cfg m fs id =
      HttpResponse.jsonError 404 "Video not ready for streaming" ∧
    (∀ ct p, getManifest cfg m fs id ≠ HttpResponse.sentFile ct p) ∧
    (∀ id2, mapGet m id2 = none →
      getManifest cfg m fs id = getManifest cfg m fs id2) := by
  have hnr : ¬(v.status = VideoStatus.ready) := by
    rcases hst with h | h <;> simp [h]
  have h1 : getManifest cfg m fs id =
      HttpResponse.jsonError 404 "Video not ready for streaming" := by
    simp [getManifest, hget, hnr]
  refine ⟨h1, ?_, ?_⟩
  · intro ct p
    rw [h1]
    intro hcontra
    cases hcontra
  · intro id2 h2
    rw [h1]
    simp [getManifest, h2]

/-- Witness for the amended C3 at the `processing` record `"p1"`. -/
theorem manifest_not_ready_response_witness :
    getManifest defaultConfig processingReg allFs "p1" =
      HttpResponse.jsonError 404 "Video not ready for streaming" ∧
    (∀ ct p, getManifest defaultConfig processingReg allFs "p1" ≠
      HttpResponse.sentFile ct p) ∧
    (∀ id2, mapGet processingReg id2 = none →
      getManifest defaultConfig processingReg allFs "p1" =
        getManifest defaultConfig processingReg allFs id2) :=
  manifest_not_ready_response defaultConfig processingReg allFs "p1"
    (sampleVideo "p1" "u" .processing 0) (by decide) (Or.inr (by decide))

/-- A registry holding one record in `ready` status. -/
def readyReg : RegMap := [("v1", sampleVideo "v1" "u" .ready 0)]

/-- A filesystem on which only the path `etc/passwd` - outside the chunk
storage - exists. -/
def outsideFs : FsModel := fun p => p == ["etc", "passwd"]

/-- Claim C4 evaluated at the failing input: the segment route performs no
validation of the segment name, so for the ready video `"v1"` the
traversal name `"../../../etc/passwd"` resolves outside the video's
output directory `uploads/chunks/v1` and the file there is sent. -/
theorem segment_traversal_eval :
    getSegment defaultConfig readyReg outsideFs "v1" "../../../etc/passwd" =
      HttpResponse.sentFile "video/MP2T" ["etc", "passwd"] ∧
    underDir (joinPaths [chunksPathOf defaultConfig, "v1"])
      ["etc", "passwd"] = false := by
  refine ⟨by decide, by decide⟩

/-- A registry with two records created at ticks 0 and 1, in creation
order. -/
def twoVideoReg : RegMap :=
  [("a", sampleVideo "a" "u" .ready 0), ("b", sampleVideo "b" "u" .ready 1)]

/-- Is a list of numbers in descending (non-increasing) order? -/
def descendingNat : List Nat → Bool
  | [] => true
  | [_] => true
  | a :: b :: rest => b ≤ a && descendingNat (b :: rest)

/-- Claim C8 (counterexample): with two records created at ticks 0 and 1
the list route returns them oldest first - the `createdAt` sequence
`[0, 1]` is not descending. -/
theorem list_order_ascending_cex :
    ((listVideos twoVideoReg none none 1 10).videos.map
      (fun v => v.createdAt) = [0, 1]) ∧
    descendingNat ((listVideos twoVideoReg none none 1 10).videos.map
      (fun v => v.createdAt)) = false := by
  refine ⟨by decide, by decide⟩

/-- Claim C8 (amended): for a registry whose insertion order follows
creation order, the list route returns the requested page of the records
matching all supplied filters together with the total count of matching
records, but ordered creation-order-ascending (oldest first), not
descending. -/
theorem list_videos_pagination (m : RegMap) (uid status : Option String)
    (page limit : Nat)
    (hord : List.Pairwise
      (fun p q : String × Video => p.2.createdAt ≤ q.2.createdAt) m) :
    ((listVideos m uid status page limit).videos =
      (((mapValues m).filter (matchesFilters uid status)).drop
        ((page - 1) * limit)).take limit) ∧
    ((listVideos m uid status page limit).total =
      ((mapValues m).filter (matchesFilters uid status)).length) ∧
    (∀ v ∈ (listVideos m uid status page limit).videos,
      matchesFilters uid status v = true) ∧
    List.Pairwise (fun a b : Video => a.createdAt ≤ b.createdAt)
      (listVideos m uid status page limit).videos := by
  have key : listVideos m uid status page limit =
      { videos := (((mapValues m).filter (matchesFilters uid status)).drop
          ((page - 1) * limit)).take limit
        total := ((mapValues m).filter (matchesFilters uid status)).length
        pages := (((mapValues m).filter
          (matchesFilters uid status)).length + limit - 1) / limit } := by
    rcases uid with _ | u <;> rcases status with _ | s
    · have h0 : matchesFilters none none = (fun _ : Video => true) := rfl
      simp only [listVideos, h0, List.filter_true]
    · have h0 : matchesFilters none (some s) =
          (fun v : Video => v.status.str == s) := rfl
      simp only [listVideos, h0]
    · have h0 : (mapValues m).filter (matchesFilters (some u) none) =
          (mapValues m).filter (fun v : Video => v.userId == u) :=
        List.filter_congr (fun v _ => by simp [matchesFilters])
      simp only [listVideos, h0]
    · have h0 : (mapValues m).filter (matchesFilters (some u) (some s)) =
          ((mapValues m).filter (fun v : Video =>
            v.userId == u)).filter (fun v : Video => v.status.str == s) := by
        rw [List.filter_filter]
        exact (List.filter_congr (fun v _ => by
          simp only [matchesFilters]
          cases hv1 : (v.userId == u) <;>
            cases hv2 : (v.status.str == s) <;> rfl)).symm
      simp only [listVideos, h0]
  have hsub : List.Sublist
      ((((mapValues m).filter (matchesFilters uid status)).drop
        ((page - 1) * limit)).take limit)
      ((mapValues m).filter (matchesFilters uid status)) :=
    (List.take_sublist _ _).trans (List.drop_sublist _ _)
  refine ⟨by rw [key], by rw [key], ?_, ?_⟩
  · intro v hv
    rw [key] at hv
    exact (List.mem_filter.1 (hsub.subset hv)).2
  · rw [key]
    have hmv : List.Pairwise (fun a b : Video => a.createdAt ≤ b.createdAt)
        (mapValues m) := List.pairwise_map.2 hord
    exact (hmv.filter (matchesFilters uid status)).sublist hsub

/-- Witness for the amended C8 on the two-record registry, no filters,
page 1 of size 10. -/
theorem list_videos_pagination_witness :
    ((listVideos twoVideoReg none none 1 10).videos =
      (((mapValues twoVideoReg).filter (matchesFilters none none)).drop
        ((1 - 1) * 10)).take 10) ∧
    ((listVideos twoVideoReg none none 1 10).total =
      ((mapValues twoVideoReg).filter (matchesFilters none none)).length) ∧
    (∀ v ∈ (listVideos twoVideoReg none none 1 10).videos,
      matchesFilters none none v = true) ∧
    List.Pairwise (fun a b : Video => a.createdAt ≤ b.createdAt)
      (listVideos twoVideoReg none none 1 10).videos :=
  list_videos_pagination twoVideoReg none none 1 10 (by decide)

theorem mapGet_failStep (m : RegMap) (id : String) (w : Video) (t : Nat)
    (hg : mapGet m id = some w) :
    mapGet (failStep m id t) id =
      some { w with status := VideoStatus.error, updatedAt := t } := by
  simp only [failStep, hg]
  exact mapGet_mapSet_self m id _

/-- A registry holding one freshly uploaded record. -/
def freshReg : RegMap := [("f1", sampleVideo "f1" "u" .uploading 0)]

/-- An engine outcome where only the thumbnail extraction fails. -/
def thumbFailOutcome : EngineOutcome :=
  { dirOk := true, thumbOk := false, probe := some 10, hlsOk := true }

/-- Claim C2 (counterexample): for the uploaded video `"f1"`, when only
the thumbnail step fails (the probe and all encodes would succeed), the
record ends in status `error`, not `ready`. -/
theorem thumbnail_failure_fatal_cex :
    ((mapGet (processVideoFinal freshReg "f1" thumbFailOutcome true 1)
      "f1").map (fun v => v.status) = some VideoStatus.error) ∧
    VideoStatus.error ≠ VideoStatus.ready := by
  refine ⟨by decide, by decide⟩

/-- Claim C2 (amended): a thumbnail-generation failure is fatal: the
rejection propagates into the catch block of `processVideo`, so the
record ends in status `error` (with its streaming urls and thumbnail
reference unchanged) even though the probe and every encode would have
succeeded. -/
theorem thumbnail_failure_sets_error (m : RegMap) (id : String) (v : Video)
    (eo : EngineOutcome) (fhls : Bool) (t : Nat)
    (hget : mapGet m id = some v)
    (hdir : eo.dirOk = true) (hthumb : eo.thumbOk = false) :
    mapGet (processVideoFinal m id eo fhls t) id =
      some { v with status := .error, updatedAt := t } := by
  have hstates : processVideoStates m id eo fhls t =
      [mapSet m id { v with status := .processing, updatedAt := t },
       failStep (mapSet m id
         { v with status := .processing, updatedAt := t }) id t] := by
    simp [processVideoStates, hget, hdir, hthumb]
  rw [processVideoFinal, hstates]
  have hlast :
      ([mapSet m id { v with status := .processing, updatedAt := t },
        failStep (mapSet m id
          { v with status := .processing, updatedAt := t }) id t] :
        List RegMap).getLastD m =
      failStep (mapSet m id
        { v with status := .processing, updatedAt := t }) id t := rfl
  rw [hlast, mapGet_failStep _ _ _ t (mapGet_mapSet_self m id _)]

/-- Witness for the amended C2 on the concrete registry `freshReg`. -/
theorem thumbnail_failure_sets_error_witness :
    mapGet (processVideoFinal freshReg "f1" thumbFailOutcome true 1) "f1" =
      some { sampleVideo "f1" "u" .uploading 0 with
        status := .error, updatedAt := 1 } :=
  thumbnail_failure_sets_error freshReg "f1"
    (sampleVideo "f1" "u" .uploading 0) thumbFailOutcome true 1
    (by decide) (by decide) (by decide)

/-- The service state before any upload. -/
def emptySys : SysState :=
  { videos := [], processingQueue := [], active := [] }

/-- A sample uploaded file. -/
def sampleFile : UploadFile :=
  { originalname := "orig.mp4"
    filename := "f.mp4"
    size := 100 }

/-- A sample accepted upload request. -/
def sampleReq : UploadReq :=
  { file := some sampleFile
    title := some "t"
    description := none
    userId := none }

/-- Claim C7 (counterexample): the 201 response of an accepted upload
reports status `processing`, not `uploading`: the synchronous part of the
fire-and-forget `processVideo` call mutates the shared record before the
response is serialized. -/
theorem upload_response_status_cex :
    ((handleUpload emptySys sampleReq "id1" 0).2).statusOf =
      some VideoStatus.processing ∧
    some VideoStatus.processing ≠ some VideoStatus.uploading := by
  refine ⟨by decide, by decide⟩

/-- Claim C7 (amended): an accepted upload creates a record with a fresh
id and status `uploading`, but before the handler serializes its response
the synchronous prefix of `processVideo` has already advanced the record
to `processing`, so the summary returned to the caller reports status
`processing`. -/
theorem upload_creates_then_processing (st : SysState) (req : UploadReq)
    (f : UploadFile) (id : String) (t : Nat)
    (hf : req.file = some f) (_hfresh : mapGet st.videos id = none) :
    (mkVideoRecord req f id t).status = .uploading ∧
    mapGet ((handleUpload st req id t).1).videos id =
      some { mkVideoRecord req f id t with
        status := .processing, updatedAt := t } ∧
    (handleUpload st req id t).2 =
      .created id (mkVideoRecord req f id t).title .processing
        (mkVideoRecord req f id t).originalUrl := by
  refine ⟨rfl, ?_, ?_⟩
  · simp [handleUpload, hf, startProcessing, mapGet_mapSet_self]
  · simp [handleUpload, hf, startProcessing, mapGet_mapSet_self]
    rfl

/-- Witness for the amended C7 at a concrete fresh upload. -/
theorem upload_creates_then_processing_witness :
    (mkVideoRecord sampleReq sampleFile "id1" 0).status = .uploading ∧
    mapGet ((handleUpload emptySys sampleReq "id1" 0).1).videos "id1" =
      some { mkVideoRecord sampleReq
        sampleFile
        "id1" 0 with status := .processing, updatedAt := 0 } ∧
    (handleUpload emptySys sampleReq "id1" 0).2 =
      .created "id1"
        (mkVideoRecord sampleReq
          sampleFile
          "id1" 0).title .processing
        (mkVideoRecord sampleReq
          sampleFile
          "id1" 0).originalUrl :=
  upload_creates_then_processing emptySys sampleReq
    sampleFile
    "id1" 0 (by decide) (by decide)

/-- Claim C5 (counterexample): a burst of two accepted uploads (with any
configured concurrency limit, e.g. `transcoding.concurrent = 1`, which
the service never reads) immediately puts two processing jobs in flight
while the `processingQueue` stays empty - nothing is ever enqueued or
consumed by a worker pool. -/
theorem upload_unbounded_concurrency_cex :
    ((handleUpload ((handleUpload emptySys sampleReq "a" 0).1)
      sampleReq "b" 1).1).active = ["a", "b"] ∧
    ((handleUpload ((handleUpload emptySys sampleReq "a" 0).1)
      sampleReq "b" 1).1).processingQueue = [] := by
  refine ⟨by decide, by decide⟩

/-- Claim C5 (amended): there is no worker pool and no queue: each
accepted upload immediately starts its own processing job (the in-flight
set grows by that id) and the declared `processingQueue` field is never
written, so the number of concurrent jobs equals the number of in-flight
uploads and is not bounded by any configured limit. -/
theorem upload_starts_job_immediately (st : SysState) (req : UploadReq)
    (f : UploadFile) (id : String) (t : Nat) (hf : req.file = some f) :
    ((handleUpload st req id t).1).active = st.active ++ [id] ∧
    ((handleUpload st req id t).1).processingQueue =
      st.processingQueue := by
  refine ⟨?_, ?_⟩ <;>
    simp [handleUpload, hf, startProcessing, mapGet_mapSet_self]

/-- Witness for the amended C5 at a concrete upload. -/
theorem upload_starts_job_immediately_witness :
    ((handleUpload emptySys sampleReq "a" 0).1).active =
      emptySys.active ++ ["a"] ∧
    ((handleUpload emptySys sampleReq "a" 0).1).processingQueue =
      emptySys.processingQueue :=
  upload_starts_job_immediately emptySys sampleReq
    sampleFile
    "a" 0 (by decide)

theorem regInvariant_handleUpload (st : SysState) (req : UploadReq)
    (fid : String) (t : Nat) (hinv : regInvariant st.videos) :
    regInvariant ((handleUpload st req fid t).1).videos := by
  rcases hf : req.file with _ | f
  · simpa [handleUpload, hf] using hinv
  · have h1 : regInvariant
        (mapSet st.videos fid (mkVideoRecord req f fid t)) :=
      regInvariant_mapSet hinv (by simp [recordOk, mkVideoRecord])
    simp only [handleUpload, hf, startProcessing, mapGet_mapSet_self]
    exact regInvariant_mapSet h1 (by simp [recordOk, mkVideoRecord])

theorem processVideoStates_inv (m : RegMap) (id : String) (v : Video)
    (eo : EngineOutcome) (fhls : Bool) (t : Nat)
    (hinv : regInvariant m) (hget : mapGet m id = some v)
    (hnone : v.streamingUrls = none) :
    ∀ s ∈ processVideoStates m id eo fhls t, regInvariant s := by
  intro s hs
  obtain ⟨dirOk, thumbOk, probe, hlsOk⟩ := eo
  have hinv1 : regInvariant
      (mapSet m id { v with status := .processing, updatedAt := t }) :=
    regInvariant_mapSet hinv (by simp [recordOk, hnone])
  have hfail1 : regInvariant
      (failStep (mapSet m id
        { v with status := .processing, updatedAt := t }) id t) := by
    simp only [failStep, mapGet_mapSet_self]
    exact regInvariant_mapSet hinv1 (by simp [recordOk, hnone])
  cases dirOk with
  | false =>
    simp [processVideoStates, hget] at hs
    rcases hs with rfl | rfl
    · exact hinv1
    · exact hfail1
  | true =>
    cases thumbOk with
    | false =>
      simp [processVideoStates, hget] at hs
      rcases hs with rfl | rfl
      · exact hinv1
      · exact hfail1
    | true =>
      rcases probe with _ | dur
      · simp [processVideoStates, hget] at hs
        rcases hs with rfl | rfl
        · exact hinv1
        · exact hfail1
      · have hinv2 : regInvariant
            (mapSet (mapSet m id
              { v with status := .processing, updatedAt := t }) id
              { v with
                status := .processing
                updatedAt := t
                duration := some dur }) :=
          regInvariant_mapSet hinv1 (by simp [recordOk, hnone])
        have hfail2 : regInvariant
            (failStep (mapSet (mapSet m id
              { v with status := .processing, updatedAt := t }) id
              { v with
                status := .processing
                updatedAt := t
                duration := some dur }) id t) := by
          simp only [failStep, mapGet_mapSet_self]
          exact regInvariant_mapSet hinv2 (by simp [recordOk, hnone])
        have hinv3 : regInvariant
            (mapSet (mapSet (mapSet m id
              { v with status := .processing, updatedAt := t }) id
              { v with
                status := .processing
                updatedAt := t
                duration := some dur }) id
              { v with
                status := .ready
                updatedAt := t
                duration := some dur
                streamingUrls := some (readyUrls id)
                thumbnailUrl := some ("/streaming/thumbnails/" ++ id) }) :=
          regInvariant_mapSet hinv2 (by simp [recordOk])
        cases fhls with
        | false =>
          simp [processVideoStates, hget] at hs
          rcases hs with rfl | rfl | rfl
          · exact hinv1
          · exact hinv2
          · exact hinv3
        | true =>
          cases hlsOk with
          | false =>
            simp [processVideoStates, hget] at hs
            rcases hs with rfl | rfl | rfl
            · exact hinv1
            · exact hinv2
            · exact hfail2
          | true =>
            simp [processVideoStates, hget] at hs
            rcases hs with rfl | rfl | rfl
            · exact hinv1
            · exact hinv2
            · exact hinv3

theorem processVideoFinal_error (m : RegMap) (id : String) (v : Video)
    (eo : EngineOutcome) (fhls : Bool) (t : Nat)
    (hget : mapGet m id = some v) (hnone : v.streamingUrls = none)
    (hfail : processSucceeds eo fhls = false) :
    ∃ v2, mapGet (processVideoFinal m id eo fhls t) id = some v2 ∧
      v2.status = .error ∧ v2.streamingUrls = none := by
  obtain ⟨dirOk, thumbOk, probe, hlsOk⟩ := eo
  have hget1 : mapGet (mapSet m id
      { v with status := .processing, updatedAt := t }) id =
      some { v with status := .processing, updatedAt := t } :=
    mapGet_mapSet_self m id _
  cases dirOk with
  | false =>
    refine ⟨{ v with status := .error, updatedAt := t }, ?_, rfl, hnone⟩
    simp [processVideoFinal, processVideoStates, hget]
    exact mapGet_failStep _ id
      { v with status := .processing, updatedAt := t } t hget1
  | true =>
    cases thumbOk with
    | false =>
      refine ⟨{ v with status := .error, updatedAt := t }, ?_, rfl, hnone⟩
      simp [processVideoFinal, processVideoStates, hget]
      exact mapGet_failStep _ id
        { v with status := .processing, updatedAt := t } t hget1
    | true =>
      rcases probe with _ | dur
      · refine ⟨{ v with status := .error, updatedAt := t }, ?_, rfl,
          hnone⟩
        simp [processVideoFinal, processVideoStates, hget]
        exact mapGet_failStep _ id
          { v with status := .processing, updatedAt := t } t hget1
      · cases fhls with
        | false => simp [processSucceeds] at hfail
        | true =>
          cases hlsOk with
          | true => simp [processSucceeds] at hfail
          | false =>
            have hget2 : mapGet (mapSet (mapSet m id
                { v with status := .processing, updatedAt := t }) id
                { v with
                  status := .processing
                  updatedAt := t
                  duration := some dur }) id =
                some { v with
                  status := .processing
                  updatedAt := t
                  duration := some dur } :=
              mapGet_mapSet_self _ id _
            refine ⟨{ v with
              status := .error
              updatedAt := t
              duration := some dur }, ?_, rfl, hnone⟩
            simp [processVideoFinal, processVideoStates, hget]
            exact mapGet_failStep _ id
              { v with
                status := .processing
                updatedAt := t
                duration := some dur } t hget2

/-- Claim C1: between operations every registry record has its rendition
manifest reference (`streamingUrls`) set exactly when its status is
`ready`: the invariant is preserved by the upload route and by every
intermediate state of `processVideo`, and whenever any processing step
fails the record ends in status `error` with no manifest reference. -/
theorem manifest_ref_iff_ready
    (st : SysState) (req : UploadReq) (fid : String) (t0 : Nat)
    (m : RegMap) (id : String) (v : Video) (eo : EngineOutcome)
    (fhls : Bool) (t : Nat)
    (hinvU : regInvariant st.videos)
    (hinv : regInvariant m) (hget : mapGet m id = some v)
    (hst : v.status = .uploading) :
    regInvariant ((handleUpload st req fid t0).1).videos ∧
    (∀ s ∈ processVideoStates m id eo fhls t, regInvariant s) ∧
    (processSucceeds eo fhls = false →
      ∃ v2, mapGet (processVideoFinal m id eo fhls t) id = some v2 ∧
        v2.status = .error ∧ v2.streamingUrls = none) := by
  have hnone : v.streamingUrls = none :=
    streamingUrls_none_of_not_ready hinv hget (by simp [hst])
  exact ⟨regInvariant_handleUpload st req fid t0 hinvU,
    processVideoStates_inv m id v eo fhls t hinv hget hnone,
    fun hfail => processVideoFinal_error m id v eo fhls t hget hnone hfail⟩

/-- Witness for C1 at a concrete fresh upload and a concrete processing
run whose thumbnail step fails. -/
theorem manifest_ref_iff_ready_witness :
    regInvariant ((handleUpload emptySys sampleReq "w1" 0).1).videos ∧
    (∀ s ∈ processVideoStates freshReg "f1" thumbFailOutcome true 1,
      regInvariant s) ∧
    (processSucceeds thumbFailOutcome true = false →
      ∃ v2, mapGet (processVideoFinal freshReg "f1" thumbFailOutcome
        true 1) "f1" = some v2 ∧
        v2.status = .error ∧ v2.streamingUrls = none) :=
  manifest_ref_iff_ready emptySys sampleReq "w1" 0 freshReg "f1"
    (sampleVideo "f1" "u" .uploading 0) thumbFailOutcome true 1
    (by decide) (by decide) (by decide) (by decide)

end Shna
